import Mathlib

/-
Verification development for the CCSDS structure generator service
(src/app.py).  The spreadsheet-to-structure transcoding loop of
`upload_excel`, the history-store operations, and the
`changeCurrentStructure` endpoint are embedded as executable Lean
definitions, and the behavioural claims about them are proved below.
-/

namespace CCSDS

/-- A spreadsheet cell after `df.fillna("")`: either a string or a number.
Numeric cells are modelled with `Int`. -/
inductive Cell where
  | str (s : String)
  | num (n : Int)
deriving DecidableEq, Repr

/-- One spreadsheet row, restricted to the ten columns the code reads
(`field_name_col[j]`, ..., `unit_col[j]` in src/app.py lines 75-84). -/
structure Row where
  fieldName : Cell
  type : Cell
  variableName : Cell
  count : Cell
  gain : Cell
  offset : Cell
  min : Cell
  max : Cell
  concept : Cell
  unit : Cell
deriving DecidableEq, Repr

/-- One sheet of the workbook: its name, its column headers, and its rows. -/
structure Sheet where
  name : String
  cols : List String
  rows : List Row
deriving Repr

/-- The `required_cols` list of src/app.py line 71. -/
def required_cols : List String :=
  ["Field Name", "Type", "Variable Name", "Count", "Gain", "Offset", "Min", "Max", "Concept", "Unit"]

/-- Does a character list start with the marker substring "SID"? -/
def startsWithSID : List Char → Bool
  | a :: b :: c :: _ => a == 'S' && b == 'I' && c == 'D'
  | _ => false

/-- Python's `"SID" in s`: substring containment of "SID". -/
def containsSID : List Char → Bool
  | [] => false
  | c :: rest => startsWithSID (c :: rest) || containsSID rest

/-- Line 103: `isinstance(field_name_col[j], str) and "SID" in field_name_col[j]`.
Returns the marker label when the cell is a string containing "SID". -/
def markerStr : Cell → Option String
  | Cell.str s => if containsSID s.toList then some s else none
  | Cell.num _ => none

/-- Line 110: the row-qualification test
`variable_name_col[j] != "Variable Name" and variable_name_col[j] != ""`. -/
def qualifies (r : Row) : Bool :=
  decide (r.variableName ≠ Cell.str "Variable Name" ∧ r.variableName ≠ Cell.str "")

/-- Python `s.split(":")[0]`: the characters before the first ':'. -/
def splitFirst : List Char → List Char
  | [] => []
  | c :: rest => if c = ':' then [] else c :: splitFirst rest

/-- Python `s.replace("SID", "")`: delete all (left-to-right,
non-overlapping) occurrences of "SID". -/
def removeSID : List Char → List Char
  | 'S' :: 'I' :: 'D' :: rest => removeSID rest
  | c :: rest => c :: removeSID rest
  | [] => []

/-- Strip leading and trailing whitespace (Python `int` ignores it). -/
def trimChars (cs : List Char) : List Char :=
  ((cs.dropWhile Char.isWhitespace).reverse.dropWhile Char.isWhitespace).reverse

/-- Value of a non-empty all-digit character list, `none` otherwise. -/
def digitsVal (cs : List Char) : Option Nat :=
  if cs = [] then none
  else cs.foldl (fun acc? c => acc?.bind (fun acc =>
    if c.isDigit then some (acc * 10 + (c.toNat - 48)) else none)) (some 0)

/-- Python `int(s)` on a string: optional sign, then digits; `none` models
the `ValueError`. -/
def pyInt (cs : List Char) : Option Int :=
  match trimChars cs with
  | '-' :: rest => (digitsVal rest).map (fun n => -(n : Int))
  | '+' :: rest => (digitsVal rest).map (fun n => (n : Int))
  | t => (digitsVal t).map (fun n => (n : Int))

/-- Line 111: `SID_Full_Name.split(":")[0].replace("SID", "")`. -/
def stripSID (label : String) : List Char :=
  removeSID (splitFirst label.toList)

/-- The metadata block of line 113. -/
structure Metadata where
  info : String
  full_name : String
  SID : String
  SIDNumber : Int
deriving DecidableEq, Repr

/-- The `sid_info_obj` record of lines 118-128. -/
structure FieldInfo where
  field_name : Cell
  type : Cell
  variable_name : Cell
  count : Cell
  gain : Cell
  offset : Cell
  min : Cell
  max : Cell
  concept : Cell
  unit : Cell
deriving DecidableEq, Repr

/-- A value stored in a group dictionary: the metadata block or a field
record. -/
inductive GVal where
  | meta (m : Metadata)
  | field (f : FieldInfo)
deriving DecidableEq, Repr

/-- A group (`SID` dict): insertion-ordered keyed entries.  Keys are cell
values (the code uses `SID[variable_name_col[j]]` and `SID["metadata"]` in
one flat key space). -/
abbrev Group := List (Cell × GVal)

/-- Python dict update `g[k] = v`: replace in place or append. -/
def Group.set : Group → Cell → GVal → Group
  | [], k, v => [(k, v)]
  | (k₀, v₀) :: rest, k, v =>
      if k₀ = k then (k, v) :: rest else (k₀, v₀) :: Group.set rest k v

/-- Python dict lookup. -/
def Group.get? : Group → Cell → Option GVal
  | [], _ => none
  | (k₀, v₀) :: rest, k => if k₀ = k then some v₀ else Group.get? rest k

/-- The per-sheet scanner state of src/app.py lines 97-100 plus the shared
output list `structure` (line 64), called `acc` here. -/
structure ScanState where
  SID : Group
  is_first_SID : Bool
  SID_Full_Name : String
  last_valid_field_name : Cell
  acc : List Group
deriving DecidableEq, Repr

/-- Lines 97-100: fresh per-sheet state around a given output accumulator. -/
def initState (acc : List Group) : ScanState :=
  { SID := [], is_first_SID := true, SID_Full_Name := "SID1",
    last_valid_field_name := Cell.str "", acc := acc }

/-- Lines 103-108: marker handling.  A marker row updates the label; from
the second marker on it also flushes the accumulator and starts a fresh
group. -/
def markerStep (st : ScanState) (r : Row) : ScanState :=
  match markerStr r.fieldName with
  | some s =>
      if st.is_first_SID then
        { st with SID_Full_Name := s, is_first_SID := false }
      else
        { st with SID_Full_Name := s, is_first_SID := false,
                  acc := st.acc ++ [st.SID], SID := [] }
  | none => st

/-- Lines 111-130: the record assembler for one qualifying row.  `none`
from `pyInt` models the `ValueError` of `int(SID_NUMBER)`. -/
def assemble (sheetName : String) (st : ScanState) (r : Row) : Except String ScanState :=
  match pyInt (stripSID st.SID_Full_Name) with
  | none => Except.error ("invalid literal for int with base 10: " ++ String.mk (stripSID st.SID_Full_Name))
  | some n =>
      let md : Metadata :=
        { info := sheetName, full_name := st.SID_Full_Name,
          SID := st.SID_Full_Name, SIDNumber := n }
      let lv := if r.fieldName ≠ Cell.str "" then r.fieldName else st.last_valid_field_name
      let fi : FieldInfo :=
        { field_name := if r.fieldName ≠ Cell.str "" then r.fieldName else lv
          type := if r.type ≠ Cell.str "" then r.type else Cell.str ""
          variable_name := if r.variableName ≠ Cell.str "" then r.variableName else Cell.str ""
          count := if r.count ≠ Cell.str "" then r.count else Cell.str ""
          gain := if r.gain ≠ Cell.str "" then r.gain else Cell.num 1
          offset := if r.offset ≠ Cell.str "" then r.offset else Cell.num 0
          min := if r.min ≠ Cell.str "" then r.min else Cell.str ""
          max := if r.max ≠ Cell.str "" then r.max else Cell.str ""
          concept := if r.concept ≠ Cell.str "" then r.concept else Cell.str ""
          unit := if r.unit ≠ Cell.str "" then r.unit else Cell.str "" }
      Except.ok { st with last_valid_field_name := lv,
                          SID := (st.SID.set (Cell.str "metadata") (GVal.meta md)).set
                                   r.variableName (GVal.field fi) }

/-- Lines 102-130: one iteration of the row loop. -/
def processRow (sheetName : String) (st : ScanState) (r : Row) : Except String ScanState :=
  let st1 := markerStep st r
  if qualifies r then assemble sheetName st1 r else Except.ok st1

/-- Lines 66-132 for a single sheet: column check, row loop, and the final
unconditional `structure.append(SID)`. -/
def transcodeSheet (acc : List Group) (sh : Sheet) : Except String (List Group) :=
  if required_cols.all (fun c => sh.cols.contains c) then
    match sh.rows.foldlM (processRow sh.name) (initState acc) with
    | Except.error e => Except.error e
    | Except.ok st => Except.ok (st.acc ++ [st.SID])
  else Except.error ("Missing required columns in sheet: " ++ sh.name)

/-- The whole-workbook transcoding (the sheet loop of line 66), producing
the `structure` list. -/
def transcode (wb : List Sheet) : Except String (List Group) :=
  wb.foldlM transcodeSheet []

/-- A sheet carrying exactly the required columns. -/
def sheetOf (sn : String) (rows : List Row) : Sheet :=
  { name := sn, cols := required_cols, rows := rows }

/-- The last non-blank field-name value among qualifying rows (the value
`last_valid_field_name` tracks, lines 114-115). -/
def lastFQ (init : Cell) (rows : List Row) : Cell :=
  rows.foldl (fun a r =>
    if qualifies r = true ∧ r.fieldName ≠ Cell.str "" then r.fieldName else a) init

/-- Number of marker rows in a sheet. -/
def markerCount (rows : List Row) : Nat :=
  rows.countP (fun r => (markerStr r.fieldName).isSome)

/-- A History Entry: `{_id, collection_name, is_current}`. -/
structure HistoryEntry where
  id : String
  collection_name : String
  is_current : Bool
deriving DecidableEq, Repr

/-- Lines 146-150 (`recordNewCurrent`): clear `is_current` on every entry,
then insert the new entry as current. -/
def recordNewCurrent (hist : List HistoryEntry) (collName : String) (newId : String) :
    List HistoryEntry :=
  (hist.map (fun e => { e with is_current := false })) ++
    [{ id := newId, collection_name := collName, is_current := true }]

/-- Lines 209-221 (`POST /changeCurrentStructure`): clear `is_current`
everywhere, set it on the entry matching the requested id (a no-op when no
entry matches), and report success. -/
def changeCurrentStructure (hist : List HistoryEntry) (sid : String) :
    List HistoryEntry × String :=
  let cleared := hist.map (fun e => { e with is_current := false })
  let updated := cleared.map (fun e =>
    if e.id = sid then { e with is_current := true } else e)
  (updated, "Current structure changed successfully")

/-- The entries a listing would show as current. -/
def currentEntries (hist : List HistoryEntry) : List HistoryEntry :=
  hist.filter (fun e => e.is_current)

/-- Persistent state: the named structure collections and the history
collection. -/
structure AppState where
  collections : List (String × List Group)
  history : List HistoryEntry
deriving Repr

/-- Lines 49-161 (`POST /uploadExcel`): transcode, then persist the new
collection, then update history, then notify.  A transcoding error leaves
the state untouched; a notification failure fails the request but keeps
the writes (the non-rollback behaviour of lines 154-157). -/
def uploadExcel (st : AppState) (wb : List Sheet) (collName : String) (newId : String)
    (notifyOk : Bool) : AppState × Except String String :=
  match transcode wb with
  | Except.error e => (st, Except.error ("Error parsing Excel: " ++ e))
  | Except.ok strs =>
      let st2 : AppState :=
        { collections := st.collections ++ [(collName, strs)],
          history := recordNewCurrent st.history collName newId }
      if notifyOk then (st2, Except.ok "File processed successfully")
      else (st2, Except.error "Error in notifying structure change in parser server")

theorem get?_set_self (g : Group) (k : Cell) (v : GVal) :
    Group.get? (Group.set g k v) k = some v := by
  induction g with
  | nil => simp [Group.set, Group.get?]
  | cons p rest ih =>
      obtain ⟨k₀, v₀⟩ := p
      by_cases h : k₀ = k
      · simp [Group.set, h, Group.get?]
      · simp [Group.set, h, Group.get?, ih]

theorem get?_set_ne (g : Group) (k k' : Cell) (v : GVal) (h : k' ≠ k) :
    Group.get? (Group.set g k v) k' = Group.get? g k' := by
  induction g with
  | nil => simp [Group.set, Group.get?, Ne.symm h]
  | cons p rest ih =>
      obtain ⟨k₀, v₀⟩ := p
      by_cases hk : k₀ = k
      · subst hk
        simp [Group.set, Group.get?, Ne.symm h]
      · simp only [Group.set, if_neg hk]
        by_cases hk' : k₀ = k'
        · simp [Group.get?, hk']
        · simp [Group.get?, hk', ih]

theorem get?_set_isSome (g : Group) (k k' : Cell) (v : GVal) :
    (Group.get? (Group.set g k v) k').isSome = true ↔
      (k' = k ∨ (Group.get? g k').isSome = true) := by
  by_cases h : k' = k
  · subst h; simp [get?_set_self]
  · simp [get?_set_ne g k k' v h, h]

theorem except_bind_error {ε β γ : Type} (e : ε) (f : β → Except ε γ) :
    ((Except.error e : Except ε β) >>= f) = Except.error e := rfl

theorem except_bind_ok {ε β γ : Type} (b : β) (f : β → Except ε γ) :
    ((Except.ok b : Except ε β) >>= f) = f b := rfl

theorem foldlM_ok_cons {ε α β : Type} (f : β → α → Except ε β) (a : α) (l : List α) (b c : β)
    (h : (a :: l).foldlM f b = Except.ok c) :
    ∃ b1, f b a = Except.ok b1 ∧ l.foldlM f b1 = Except.ok c := by
  rw [List.foldlM_cons] at h
  cases hfa : f b a with
  | error e => rw [hfa, except_bind_error] at h; exact absurd h (by simp)
  | ok b1 =>
      rw [hfa, except_bind_ok] at h
      exact ⟨b1, rfl, h⟩

theorem foldlM_ok_append {ε α β : Type} (f : β → α → Except ε β) (l₁ l₂ : List α) (b c : β)
    (h : (l₁ ++ l₂).foldlM f b = Except.ok c) :
    ∃ bm, l₁.foldlM f b = Except.ok bm ∧ l₂.foldlM f bm = Except.ok c := by
  induction l₁ generalizing b with
  | nil => exact ⟨b, rfl, h⟩
  | cons a t ih =>
      rw [List.cons_append] at h
      obtain ⟨b1, hb1, hrest⟩ := foldlM_ok_cons f a (t ++ l₂) b c h
      obtain ⟨bm, hmid, hend⟩ := ih b1 hrest
      refine ⟨bm, ?_, hend⟩
      rw [List.foldlM_cons, hb1]
      simpa [Except.bind] using hmid

theorem processRow_noop (sn : String) (st : ScanState) (r : Row)
    (hm : markerStr r.fieldName = none) (hq : qualifies r = false) :
    processRow sn st r = Except.ok st := by
  simp [processRow, markerStep, hm, hq]

theorem assemble_ok_shape (sn : String) (st : ScanState) (r : Row) (st' : ScanState)
    (h : assemble sn st r = Except.ok st') :
    ∃ n, pyInt (stripSID st.SID_Full_Name) = some n ∧
      st' = { st with
        last_valid_field_name :=
          if r.fieldName ≠ Cell.str "" then r.fieldName else st.last_valid_field_name,
        SID := (st.SID.set (Cell.str "metadata")
                  (GVal.meta { info := sn, full_name := st.SID_Full_Name,
                               SID := st.SID_Full_Name,
                               SIDNumber := n })).set r.variableName
                 (GVal.field
                   { field_name :=
                       if r.fieldName ≠ Cell.str "" then r.fieldName
                       else if r.fieldName ≠ Cell.str "" then r.fieldName
                            else st.last_valid_field_name
                     type := if r.type ≠ Cell.str "" then r.type else Cell.str ""
                     variable_name :=
                       if r.variableName ≠ Cell.str "" then r.variableName else Cell.str ""
                     count := if r.count ≠ Cell.str "" then r.count else Cell.str ""
                     gain := if r.gain ≠ Cell.str "" then r.gain else Cell.num 1
                     offset := if r.offset ≠ Cell.str "" then r.offset else Cell.num 0
                     min := if r.min ≠ Cell.str "" then r.min else Cell.str ""
                     max := if r.max ≠ Cell.str "" then r.max else Cell.str ""
                     concept := if r.concept ≠ Cell.str "" then r.concept else Cell.str ""
                     unit := if r.unit ≠ Cell.str "" then r.unit else Cell.str "" }) } := by
  unfold assemble at h
  cases hp : pyInt (stripSID st.SID_Full_Name) with
  | none => rw [hp] at h; exact absurd h (by simp)
  | some n =>
      rw [hp] at h
      refine ⟨n, rfl, ?_⟩
      simp only [Except.ok.injEq] at h
      exact h.symm

theorem processRow_frame (sn : String) (st : ScanState) (r : Row) (st' : ScanState)
    (h : processRow sn st r = Except.ok st') :
    st'.acc = (markerStep st r).acc ∧
    st'.is_first_SID = (markerStep st r).is_first_SID ∧
    st'.SID_Full_Name = (markerStep st r).SID_Full_Name := by
  unfold processRow at h
  by_cases hq : qualifies r
  · rw [if_pos hq] at h
    obtain ⟨n, -, hshape⟩ := assemble_ok_shape sn (markerStep st r) r st' h
    subst hshape
    exact ⟨rfl, rfl, rfl⟩
  · rw [if_neg hq] at h
    simp only [Except.ok.injEq] at h
    subst h
    exact ⟨rfl, rfl, rfl⟩

theorem markerStep_lv (st : ScanState) (r : Row) :
    (markerStep st r).last_valid_field_name = st.last_valid_field_name := by
  unfold markerStep
  cases markerStr r.fieldName with
  | none => rfl
  | some s => by_cases hf : st.is_first_SID <;> simp [hf]

theorem processRow_lv (sn : String) (st : ScanState) (r : Row) (st' : ScanState)
    (h : processRow sn st r = Except.ok st') :
    st'.last_valid_field_name =
      if qualifies r = true ∧ r.fieldName ≠ Cell.str "" then r.fieldName
      else st.last_valid_field_name := by
  unfold processRow at h
  by_cases hq : qualifies r
  · rw [if_pos hq] at h
    obtain ⟨n, -, hshape⟩ := assemble_ok_shape sn (markerStep st r) r st' h
    subst hshape
    by_cases hf : r.fieldName ≠ Cell.str ""
    · simp [hq, hf, markerStep_lv]
    · simp [hq, hf, markerStep_lv]
  · rw [if_neg hq] at h
    simp only [Except.ok.injEq] at h
    subst h
    simp [hq, markerStep_lv]

theorem processRow_keys_nonmarker (sn : String) (st : ScanState) (r : Row) (st' : ScanState)
    (h : processRow sn st r = Except.ok st') (hm : markerStr r.fieldName = none) :
    ∀ k, (Group.get? st'.SID k).isSome = true ↔
      ((Group.get? st.SID k).isSome = true ∨
       (qualifies r = true ∧ (k = Cell.str "metadata" ∨ k = r.variableName))) := by
  intro k
  unfold processRow at h
  have hms : markerStep st r = st := by simp [markerStep, hm]
  rw [hms] at h
  by_cases hq : qualifies r
  · rw [if_pos hq] at h
    obtain ⟨n, -, hshape⟩ := assemble_ok_shape sn st r st' h
    subst hshape
    simp only [get?_set_isSome, hq]
    constructor
    · rintro (hk | (hk | hg))
      · exact Or.inr ⟨trivial, Or.inr hk⟩
      · exact Or.inr ⟨trivial, Or.inl hk⟩
      · exact Or.inl hg
    · rintro (hg | ⟨-, (hk | hk)⟩)
      · exact Or.inr (Or.inr hg)
      · exact Or.inr (Or.inl hk)
      · exact Or.inl hk
  · rw [if_neg hq] at h
    simp only [Except.ok.injEq] at h
    subst h
    simp [hq]

theorem foldlM_nil_ok {ε α β : Type} (f : β → α → Except ε β) (b : β) :
    ([] : List α).foldlM f b = Except.ok b := rfl

theorem processRow_marker (sn : String) (st : ScanState) (r : Row) (st' : ScanState) (s : String)
    (h : processRow sn st r = Except.ok st') (hm : markerStr r.fieldName = some s) :
    st'.SID_Full_Name = s ∧ st'.is_first_SID = false ∧
    (st'.acc = if st.is_first_SID then st.acc else st.acc ++ [st.SID]) ∧
    ∀ k, (Group.get? st'.SID k).isSome = true ↔
      ((st.is_first_SID = true ∧ (Group.get? st.SID k).isSome = true) ∨
       (qualifies r = true ∧ (k = Cell.str "metadata" ∨ k = r.variableName))) := by
  unfold processRow at h
  by_cases hfst : st.is_first_SID
  · have hms : markerStep st r = { st with SID_Full_Name := s, is_first_SID := false } := by
      simp [markerStep, hm, hfst]
    rw [hms] at h
    by_cases hq : qualifies r
    · rw [if_pos hq] at h
      obtain ⟨n, -, hshape⟩ := assemble_ok_shape sn _ r st' h
      subst hshape
      refine ⟨rfl, rfl, by simp [hfst], ?_⟩
      intro k
      simp only [get?_set_isSome, hq, hfst]
      constructor
      · rintro (hk | (hk | hg))
        · exact Or.inr ⟨trivial, Or.inr hk⟩
        · exact Or.inr ⟨trivial, Or.inl hk⟩
        · exact Or.inl ⟨trivial, hg⟩
      · rintro (⟨-, hg⟩ | ⟨-, (hk | hk)⟩)
        · exact Or.inr (Or.inr hg)
        · exact Or.inr (Or.inl hk)
        · exact Or.inl hk
    · rw [if_neg hq] at h
      simp only [Except.ok.injEq] at h
      subst h
      refine ⟨rfl, rfl, by simp [hfst], ?_⟩
      intro k
      simp [hq, hfst]
  · have hms : markerStep st r =
        { st with SID_Full_Name := s, is_first_SID := false,
                  acc := st.acc ++ [st.SID], SID := [] } := by
      simp [markerStep, hm, hfst]
    rw [hms] at h
    by_cases hq : qualifies r
    · rw [if_pos hq] at h
      obtain ⟨n, -, hshape⟩ := assemble_ok_shape sn _ r st' h
      subst hshape
      refine ⟨rfl, rfl, by simp [hfst], ?_⟩
      intro k
      simp only [get?_set_isSome, hq]
      have hfst' : (st.is_first_SID = true) = False := by simp [hfst]
      simp only [hfst', false_and, false_or, Group.get?, Option.isSome_none]
      constructor
      · rintro (hk | (hk | hg))
        · exact ⟨trivial, Or.inr hk⟩
        · exact ⟨trivial, Or.inl hk⟩
        · cases hg
      · rintro ⟨-, (hk | hk)⟩
        · exact Or.inr (Or.inl hk)
        · exact Or.inl hk
    · rw [if_neg hq] at h
      simp only [Except.ok.injEq] at h
      subst h
      refine ⟨rfl, rfl, by simp [hfst], ?_⟩
      intro k
      simp [hq, hfst, Group.get?]

theorem fold_noop (sn : String) (rows : List Row) (st : ScanState)
    (hpre : ∀ r ∈ rows, markerStr r.fieldName = none ∧ qualifies r = false) :
    rows.foldlM (processRow sn) st = Except.ok st := by
  induction rows with
  | nil => rfl
  | cons r rest ih =>
      obtain ⟨hm, hq⟩ := hpre r (List.mem_cons_self r rest)
      rw [List.foldlM_cons, processRow_noop sn st r hm hq, except_bind_ok]
      exact ih (fun r' hr' => hpre r' (List.mem_cons_of_mem r hr'))

theorem fold_lv (sn : String) (rows : List Row) (st stf : ScanState)
    (h : rows.foldlM (processRow sn) st = Except.ok stf) :
    stf.last_valid_field_name = lastFQ st.last_valid_field_name rows := by
  induction rows generalizing st with
  | nil =>
      rw [foldlM_nil_ok] at h
      simp only [Except.ok.injEq] at h
      subst h
      simp [lastFQ]
  | cons r rest ih =>
      obtain ⟨st1, hstep, hrest⟩ := foldlM_ok_cons _ r rest st stf h
      have hlv := processRow_lv sn st r st1 hstep
      have := ih st1 hrest
      rw [this, hlv]
      simp [lastFQ, List.foldl_cons]

theorem fold_frame_nonmarker (sn : String) (rows : List Row) (st stf : ScanState)
    (hnm : ∀ r ∈ rows, markerStr r.fieldName = none)
    (h : rows.foldlM (processRow sn) st = Except.ok stf) :
    stf.acc = st.acc ∧ stf.is_first_SID = st.is_first_SID ∧
    stf.SID_Full_Name = st.SID_Full_Name := by
  induction rows generalizing st with
  | nil =>
      rw [foldlM_nil_ok] at h
      simp only [Except.ok.injEq] at h
      subst h
      exact ⟨rfl, rfl, rfl⟩
  | cons r rest ih =>
      obtain ⟨st1, hstep, hrest⟩ := foldlM_ok_cons _ r rest st stf h
      have hm := hnm r (List.mem_cons_self r rest)
      have hframe := processRow_frame sn st r st1 hstep
      have hms : markerStep st r = st := by simp [markerStep, hm]
      rw [hms] at hframe
      obtain ⟨ha, hb, hc⟩ := ih st1 (fun r' hr' => hnm r' (List.mem_cons_of_mem r hr')) hrest
      exact ⟨ha.trans hframe.1, hb.trans hframe.2.1, hc.trans hframe.2.2⟩

theorem fold_nomarker_keys (sn : String) (rows : List Row) (st stf : ScanState)
    (hnm : ∀ r ∈ rows, markerStr r.fieldName = none)
    (h : rows.foldlM (processRow sn) st = Except.ok stf) :
    ∀ k, (Group.get? stf.SID k).isSome = true ↔
      ((Group.get? st.SID k).isSome = true ∨
       (k = Cell.str "metadata" ∧ ∃ r ∈ rows, qualifies r = true) ∨
       (∃ r ∈ rows, qualifies r = true ∧ k = r.variableName)) := by
  induction rows generalizing st with
  | nil =>
      rw [foldlM_nil_ok] at h
      simp only [Except.ok.injEq] at h
      subst h
      simp
  | cons r rest ih =>
      intro k
      obtain ⟨st1, hstep, hrest⟩ := foldlM_ok_cons _ r rest st stf h
      have hm := hnm r (List.mem_cons_self r rest)
      have hk1 := processRow_keys_nonmarker sn st r st1 hstep hm
      have hk2 := ih st1 (fun r' hr' => hnm r' (List.mem_cons_of_mem r hr')) hrest
      rw [hk2 k, hk1 k]
      constructor
      · rintro ((hst | ⟨hqr, (hmd | hvar)⟩) | ⟨hmd, r', hr', hq'⟩ | ⟨r', hr', hq', hk'⟩)
        · exact Or.inl hst
        · exact Or.inr (Or.inl ⟨hmd, r, List.mem_cons_self r rest, hqr⟩)
        · exact Or.inr (Or.inr ⟨r, List.mem_cons_self r rest, hqr, hvar⟩)
        · exact Or.inr (Or.inl ⟨hmd, r', List.mem_cons_of_mem r hr', hq'⟩)
        · exact Or.inr (Or.inr ⟨r', List.mem_cons_of_mem r hr', hq', hk'⟩)
      · rintro (hst | ⟨hmd, r', hr', hq'⟩ | ⟨r', hr', hq', hk'⟩)
        · exact Or.inl (Or.inl hst)
        · rcases List.mem_cons.mp hr' with heq | hmem
          · subst heq; exact Or.inl (Or.inr ⟨hq', Or.inl hmd⟩)
          · exact Or.inr (Or.inl ⟨hmd, r', hmem, hq'⟩)
        · rcases List.mem_cons.mp hr' with heq | hmem
          · subst heq; exact Or.inl (Or.inr ⟨hq', Or.inr hk'⟩)
          · exact Or.inr (Or.inr ⟨r', hmem, hq', hk'⟩)

theorem fold_measure (sn : String) (rows : List Row) (st stf : ScanState)
    (h : rows.foldlM (processRow sn) st = Except.ok stf) :
    stf.acc.length + (if stf.is_first_SID then 0 else 1) =
      st.acc.length + (if st.is_first_SID then 0 else 1) + markerCount rows ∧
    stf.is_first_SID = (st.is_first_SID && decide (markerCount rows = 0)) := by
  induction rows generalizing st with
  | nil =>
      rw [foldlM_nil_ok] at h
      simp only [Except.ok.injEq] at h
      subst h
      simp [markerCount]
  | cons r rest ih =>
      obtain ⟨st1, hstep, hrest⟩ := foldlM_ok_cons _ r rest st stf h
      have hframe := processRow_frame sn st r st1 hstep
      obtain ⟨hmeas, hflag⟩ := ih st1 hrest
      cases hm : markerStr r.fieldName with
      | none =>
          have hms : markerStep st r = st := by simp [markerStep, hm]
          rw [hms] at hframe
          have hcnt : markerCount (r :: rest) = markerCount rest := by
            simp [markerCount, List.countP_cons, hm]
          constructor
          · rw [hcnt, hmeas, hframe.1, hframe.2.1]
          · rw [hflag, hframe.2.1, hcnt]
      | some s =>
          have hcnt : markerCount (r :: rest) = markerCount rest + 1 := by
            simp [markerCount, List.countP_cons, hm]
          by_cases hfst : st.is_first_SID
          · have hms : markerStep st r = { st with SID_Full_Name := s, is_first_SID := false } := by
              simp [markerStep, hm, hfst]
            rw [hms] at hframe
            constructor
            · rw [hmeas, hcnt]
              simp only [hframe.1, hframe.2.1]
              simp [hfst]
              omega
            · rw [hflag]
              simp only [hframe.2.1]
              simp [hfst, hcnt]
          · have hms : markerStep st r =
                { st with SID_Full_Name := s, is_first_SID := false,
                          acc := st.acc ++ [st.SID], SID := [] } := by
              simp [markerStep, hm, hfst]
            rw [hms] at hframe
            constructor
            · rw [hmeas, hcnt]
              simp only [hframe.1, hframe.2.1]
              simp [hfst]
              omega
            · rw [hflag]
              simp only [hframe.2.1]
              simp [hfst, hcnt]

theorem fold_badlabel (sn : String) (rows : List Row) (st : ScanState)
    (hnm : ∀ r ∈ rows, markerStr r.fieldName = none)
    (hbad : pyInt (stripSID st.SID_Full_Name) = none)
    (hq : ∃ r ∈ rows, qualifies r = true) :
    ∃ msg, rows.foldlM (processRow sn) st = Except.error msg := by
  induction rows with
  | nil => simp at hq
  | cons r rest ih =>
      have hm := hnm r (List.mem_cons_self r rest)
      have hms : markerStep st r = st := by simp [markerStep, hm]
      by_cases hqr : qualifies r
      · refine ⟨"invalid literal for int with base 10: " ++
          String.mk (stripSID st.SID_Full_Name), ?_⟩
        rw [List.foldlM_cons]
        have : processRow sn st r = Except.error ("invalid literal for int with base 10: " ++
            String.mk (stripSID st.SID_Full_Name)) := by
          unfold processRow
          rw [hms, if_pos hqr]
          unfold assemble
          rw [hbad]
        rw [this, except_bind_error]
      · have hqr' : qualifies r = false := by simp only [Bool.not_eq_true] at hqr; exact hqr
        have hstep : processRow sn st r = Except.ok st := processRow_noop sn st r hm hqr'
        rw [List.foldlM_cons, hstep, except_bind_ok]
        refine ih (fun r' hr' => hnm r' (List.mem_cons_of_mem r hr')) ?_
        obtain ⟨r', hr', hq'⟩ := hq
        rcases List.mem_cons.mp hr' with heq | hmem
        · subst heq; exact absurd hq' (by simp [hqr])
        · exact ⟨r', hmem, hq'⟩

theorem requiredOK : (required_cols.all fun c => required_cols.contains c) = true := by decide

theorem transcodeSheet_ok_elim (acc : List Group) (sh : Sheet) (gs : List Group)
    (hc : (required_cols.all fun c => sh.cols.contains c) = true)
    (h : transcodeSheet acc sh = Except.ok gs) :
    ∃ st, sh.rows.foldlM (processRow sh.name) (initState acc) = Except.ok st ∧
      gs = st.acc ++ [st.SID] := by
  unfold transcodeSheet at h
  rw [if_pos hc] at h
  cases hfold : sh.rows.foldlM (processRow sh.name) (initState acc) with
  | error e => rw [hfold] at h; exact absurd h (by simp)
  | ok st =>
      rw [hfold] at h
      simp only [Except.ok.injEq] at h
      exact ⟨st, rfl, h.symm⟩

theorem transcode_single (sh : Sheet) (gs : List Group)
    (h : transcode [sh] = Except.ok gs) : transcodeSheet [] sh = Except.ok gs := by
  unfold transcode at h
  rw [List.foldlM_cons] at h
  cases hsh : transcodeSheet [] sh with
  | error e => rw [hsh, except_bind_error] at h; exact absurd h (by simp)
  | ok gs' =>
      rw [hsh, except_bind_ok] at h
      rw [foldlM_nil_ok] at h
      simp only [Except.ok.injEq] at h
      subst h
      rfl

/-- A row with all cells blank, the base for the concrete examples. -/
def blankRow : Row :=
  { fieldName := Cell.str "", type := Cell.str "", variableName := Cell.str "",
    count := Cell.str "", gain := Cell.str "", offset := Cell.str "",
    min := Cell.str "", max := Cell.str "", concept := Cell.str "", unit := Cell.str "" }

/-- An empty application state. -/
def st0 : AppState := { collections := [], history := [] }

/-- A one-entry history whose single entry is current. -/
def c1hist : List HistoryEntry :=
  [{ id := "507f1f77bcf86cd799439011", collection_name := "CCSDS_Structure 2025-01-01",
     is_current := true }]

/-- C1: the claim says a change-current request whose id matches no History
Entry fails with a NotFoundError and never leaves zero current entries.
The code (src/app.py lines 209-221) instead clears every `is_current`
flag, matches nothing in the second update, reports success, and leaves
the history with zero current entries.  This theorem evaluates the model
at such a failing input. -/
theorem C1_change_current_missing_id_reports_success :
    changeCurrentStructure c1hist "507f1f77bcf86cd799439012" =
      ([{ id := "507f1f77bcf86cd799439011", collection_name := "CCSDS_Structure 2025-01-01",
          is_current := false }], "Current structure changed successfully") ∧
    currentEntries (changeCurrentStructure c1hist "507f1f77bcf86cd799439012").1 = [] := by
  constructor <;> rfl

theorem filter_cleared (hist : List HistoryEntry) :
    (hist.map (fun e => { e with is_current := false })).filter (fun e => e.is_current) = [] := by
  induction hist with
  | nil => rfl
  | cons e t ih => simp [ih]

theorem rec_current (hist : List HistoryEntry) (collName newId : String) :
    currentEntries (recordNewCurrent hist collName newId) =
      [{ id := newId, collection_name := collName, is_current := true }] := by
  unfold currentEntries recordNewCurrent
  rw [List.filter_append, filter_cleared]
  rfl

/-- C2: after any non-empty sequence of sequential `recordNewCurrent`
operations (the clear-then-insert of src/app.py lines 145-152), listing
the history shows exactly one entry with `is_current = true`, and it is
the entry recorded by the last operation. -/
theorem C2_exactly_one_current (init : List HistoryEntry) (ops : List (String × String))
    (p : String × String) (h : ops.getLast? = some p) :
    currentEntries (ops.foldl (fun hist q => recordNewCurrent hist q.1 q.2) init) =
      [{ id := p.2, collection_name := p.1, is_current := true }] := by
  induction ops generalizing init with
  | nil => exact absurd h (by simp)
  | cons q rest ih =>
      cases rest with
      | nil =>
          simp only [List.getLast?_singleton, Option.some.injEq] at h
          subst h
          simp only [List.foldl_cons, List.foldl_nil]
          exact rec_current init q.1 q.2
      | cons q2 t =>
          have h' : (q2 :: t).getLast? = some p := by
            rw [← h]; exact List.getLast?_cons_cons.symm
          simp only [List.foldl_cons]
          exact ih (recordNewCurrent init q.1 q.2) h'

/-- Witness for C2 at a concrete input: one upload into an initially
current-free history. -/
theorem C2_exactly_one_current_witness :
    currentEntries ([("CCSDS_Structure 1", "id1")].foldl
        (fun hist q => recordNewCurrent hist q.1 q.2) []) =
      [{ id := "id1", collection_name := "CCSDS_Structure 1", is_current := true }] :=
  C2_exactly_one_current [] [("CCSDS_Structure 1", "id1")] ("CCSDS_Structure 1", "id1") rfl

/-- The row whose variable-name cell is the literal string "metadata". -/
def c9row : Row := { blankRow with fieldName := Cell.str "F", variableName := Cell.str "metadata" }

/-- The field record assembled from `c9row`. -/
def c9fi : FieldInfo :=
  { field_name := Cell.str "F", type := Cell.str "", variable_name := Cell.str "metadata",
    count := Cell.str "", gain := Cell.num 1, offset := Cell.num 0,
    min := Cell.str "", max := Cell.str "", concept := Cell.str "", unit := Cell.str "" }

/-- C9: because field entries (src/app.py line 130) and the metadata block
(line 117) share one flat key space, a workbook whose last qualifying row
has variable name "metadata" yields a group whose "metadata" key holds
that row's field record, not a metadata block. -/
theorem C9_metadata_key_collision :
    transcode [sheetOf "Sheet1" [c9row]] =
      Except.ok [[(Cell.str "metadata", GVal.field c9fi)]] ∧
    Group.get? [(Cell.str "metadata", GVal.field c9fi)] (Cell.str "metadata") =
      some (GVal.field c9fi) ∧
    ∀ md : Metadata,
      Group.get? [(Cell.str "metadata", GVal.field c9fi)] (Cell.str "metadata") ≠
        some (GVal.meta md) := by
  refine ⟨rfl, rfl, ?_⟩
  intro md hmd
  rw [show Group.get? [(Cell.str "metadata", GVal.field c9fi)] (Cell.str "metadata") =
      some (GVal.field c9fi) from rfl] at hmd
  simp at hmd

theorem startsWithSID_iff (cs : List Char) :
    startsWithSID cs = true ↔ ∃ t, cs = 'S' :: 'I' :: 'D' :: t := by
  cases cs with
  | nil => simp [startsWithSID]
  | cons a as =>
      cases as with
      | nil => simp [startsWithSID]
      | cons b bs =>
          cases bs with
          | nil => simp [startsWithSID]
          | cons c t =>
              simp [startsWithSID, Bool.and_eq_true, List.cons.injEq, and_assoc]

theorem containsSID_iff (cs : List Char) :
    containsSID cs = true ↔ ∃ l t, cs = l ++ 'S' :: 'I' :: 'D' :: t := by
  induction cs with
  | nil => simp [containsSID]
  | cons a as ih =>
      rw [show containsSID (a :: as) = (startsWithSID (a :: as) || containsSID as) from rfl]
      simp only [Bool.or_eq_true, startsWithSID_iff, ih]
      constructor
      · rintro (⟨t, heq⟩ | ⟨l, t, heq⟩)
        · exact ⟨[], t, by simpa using heq⟩
        · exact ⟨a :: l, t, by simp [heq]⟩
      · rintro ⟨l, t, heq⟩
        cases l with
        | nil => exact Or.inl ⟨t, by simpa using heq⟩
        | cons x l' =>
            simp only [List.cons_append, List.cons.injEq] at heq
            exact Or.inr ⟨l', t, heq.2⟩

theorem marker_iff (r : Row) :
    (markerStr r.fieldName).isSome = true ↔
      ∃ s, r.fieldName = Cell.str s ∧ s ≠ "" ∧
        ∃ l t, s.toList = l ++ 'S' :: 'I' :: 'D' :: t := by
  cases hc : r.fieldName with
  | num n => simp [markerStr]
  | str s =>
      simp only [markerStr]
      by_cases h : containsSID s.toList
      · rw [if_pos h]
        simp only [Option.isSome_some, true_iff]
        obtain ⟨l, t, heq⟩ := (containsSID_iff s.toList).mp h
        refine ⟨s, rfl, ?_, l, t, heq⟩
        intro hs
        subst hs
        simp at heq
      · rw [if_neg h]
        constructor
        · intro hfalse; exact absurd hfalse (by simp)
        · rintro ⟨s', hss, -, l, t, heq⟩
          injection hss with hss'
          subst hss'
          exact absurd ((containsSID_iff s.toList).mpr ⟨l, t, heq⟩) h

/-- C8: a row contributes a field entry to the active group iff its
variable-name cell is neither blank nor the literal header label
"Variable Name" (the test of src/app.py line 110); rows failing the test
leave every group's contents untouched. -/
theorem C8_variable_name_gate (sn : String) (st : ScanState) (r : Row) :
    ((r.variableName ≠ Cell.str "Variable Name" ∧ r.variableName ≠ Cell.str "") →
      ∀ st', processRow sn st r = Except.ok st' →
        ∃ fi, Group.get? st'.SID r.variableName = some (GVal.field fi)) ∧
    (¬(r.variableName ≠ Cell.str "Variable Name" ∧ r.variableName ≠ Cell.str "") →
      processRow sn st r = Except.ok (markerStep st r) ∧
      ((markerStep st r).SID = st.SID ∨ (markerStep st r).SID = []) ∧
      ((markerStep st r).acc = st.acc ∨ (markerStep st r).acc = st.acc ++ [st.SID])) := by
  constructor
  · intro hq st' hr
    have hq' : qualifies r = true := decide_eq_true hq
    unfold processRow at hr
    rw [if_pos hq'] at hr
    obtain ⟨n, -, hshape⟩ := assemble_ok_shape sn (markerStep st r) r st' hr
    subst hshape
    exact ⟨_, get?_set_self _ _ _⟩
  · intro hq
    have hq' : qualifies r = false := decide_eq_false hq
    refine ⟨by simp [processRow, hq'], ?_, ?_⟩
    · unfold markerStep
      cases markerStr r.fieldName with
      | none => exact Or.inl rfl
      | some s =>
          by_cases hfst : st.is_first_SID
          · simp [hfst]
          · simp [hfst]
    · unfold markerStep
      cases markerStr r.fieldName with
      | none => exact Or.inl rfl
      | some s =>
          by_cases hfst : st.is_first_SID
          · simp [hfst]
          · simp [hfst]

/-- A qualifying non-marker example row used by the C8 witness. -/
def c8row : Row := { blankRow with fieldName := Cell.str "A", variableName := Cell.str "x" }

/-- Witness for C8: the qualifying row `c8row` contributes an entry under
its variable name. -/
theorem C8_variable_name_gate_witness :
    ∃ fi, Group.get? ((processRow "S" (initState []) c8row).toOption.getD
        (initState [])).SID c8row.variableName = some (GVal.field fi) :=
  (C8_variable_name_gate "S" (initState []) c8row).1 (by decide)
    ((processRow "S" (initState []) c8row).toOption.getD (initState [])) rfl

/-- C3: group emission is deferred by one boundary.  A successful
transcode of a sheet emits `max (number of marker rows) 1` groups: the
accumulator is appended exactly when a later marker opens a new group,
and the final accumulator is appended unconditionally at sheet end (even
when it received no qualifying row).  With zero marker rows the sheet
yields exactly one group whose keys are exactly the metadata key (when
any row qualifies) plus the variable names of the qualifying rows. -/
theorem C3_deferred_emission (sn : String) (rows : List Row) (gs : List Group)
    (hok : transcode [sheetOf sn rows] = Except.ok gs) :
    gs.length = max (markerCount rows) 1 ∧
    (markerCount rows = 0 → ∃ g, gs = [g] ∧
      ∀ k, (Group.get? g k).isSome = true ↔
        ((k = Cell.str "metadata" ∧ ∃ r ∈ rows, qualifies r = true) ∨
         (∃ r ∈ rows, qualifies r = true ∧ k = r.variableName))) := by
  have h1 := transcode_single _ _ hok
  obtain ⟨st, hfold, hgs⟩ := transcodeSheet_ok_elim [] _ gs requiredOK h1
  constructor
  · obtain ⟨hmeas, hflag⟩ := fold_measure sn rows (initState []) st hfold
    have hlen : gs.length = st.acc.length + 1 := by
      rw [hgs]; simp
    simp only [initState] at hmeas hflag
    by_cases hmc : markerCount rows = 0
    · rw [hmc] at hmeas hflag ⊢
      simp at hmeas hflag
      rw [hlen, hmeas.1]
      simp
    · have hmc' : decide (markerCount rows = 0) = false := by simp [hmc]
      rw [hmc'] at hflag
      simp at hflag
      rw [hflag] at hmeas
      simp at hmeas
      rw [hlen]
      omega
  · intro hmc
    have hall : ∀ r ∈ rows, markerStr r.fieldName = none := by
      intro r hr
      have hP := List.countP_eq_zero.mp hmc r hr
      cases hcase : markerStr r.fieldName with
      | none => rfl
      | some s => rw [hcase] at hP; exact absurd rfl hP
    have hframe := fold_frame_nonmarker sn rows (initState []) st hall hfold
    have hkeys := fold_nomarker_keys sn rows (initState []) st hall hfold
    refine ⟨st.SID, ?_, ?_⟩
    · rw [hgs, hframe.1]
      rfl
    · intro k
      rw [hkeys k]
      simp [initState, Group.get?]

/-- Witness for C3 on a one-row markerless sheet. -/
theorem C3_deferred_emission_witness :
    ((transcode [sheetOf "S" [c8row]]).toOption.getD []).length = max (markerCount [c8row]) 1 ∧
    (markerCount [c8row] = 0 → ∃ g, (transcode [sheetOf "S" [c8row]]).toOption.getD [] = [g] ∧
      ∀ k, (Group.get? g k).isSome = true ↔
        ((k = Cell.str "metadata" ∧ ∃ r ∈ [c8row], qualifies r = true) ∨
         (∃ r ∈ [c8row], qualifies r = true ∧ k = r.variableName))) :=
  C3_deferred_emission "S" [c8row] ((transcode [sheetOf "S" [c8row]]).toOption.getD []) rfl

/-- C5 (amended): for a qualifying row processed after `before`, each
attribute of the emitted field record resolves as the code does: a blank
field-name cell falls back to the last non-blank field-name among the
earlier QUALIFYING rows (not among all earlier rows), blank gain is the
number 1, blank offset the number 0, the other blank cells the empty
string, and non-blank cells are used verbatim. -/
theorem C5_attribute_defaults (sn : String) (before : List Row) (r : Row) (st st' : ScanState)
    (hfold : before.foldlM (processRow sn) (initState []) = Except.ok st)
    (hq : qualifies r = true)
    (hr : processRow sn st r = Except.ok st') :
    Group.get? st'.SID r.variableName = some (GVal.field
      { field_name := if r.fieldName = Cell.str "" then lastFQ (Cell.str "") before else r.fieldName
        type := if r.type = Cell.str "" then Cell.str "" else r.type
        variable_name := if r.variableName = Cell.str "" then Cell.str "" else r.variableName
        count := if r.count = Cell.str "" then Cell.str "" else r.count
        gain := if r.gain = Cell.str "" then Cell.num 1 else r.gain
        offset := if r.offset = Cell.str "" then Cell.num 0 else r.offset
        min := if r.min = Cell.str "" then Cell.str "" else r.min
        max := if r.max = Cell.str "" then Cell.str "" else r.max
        concept := if r.concept = Cell.str "" then Cell.str "" else r.concept
        unit := if r.unit = Cell.str "" then Cell.str "" else r.unit }) := by
  have hlv : st.last_valid_field_name = lastFQ (Cell.str "") before := by
    have := fold_lv sn before (initState []) st hfold
    simpa [initState] using this
  unfold processRow at hr
  rw [if_pos hq] at hr
  obtain ⟨n, -, hshape⟩ := assemble_ok_shape sn (markerStep st r) r st' hr
  subst hshape
  rw [get?_set_self]
  refine congrArg some (congrArg GVal.field ?_)
  have hmlv := markerStep_lv st r
  by_cases hfn : r.fieldName = Cell.str ""
  · simp [FieldInfo.mk.injEq, ite_not, hfn, hmlv, hlv]
  · simp [FieldInfo.mk.injEq, ite_not, hfn]

/-- The marker row of the C5 counterexample: a non-blank field-name cell
("SID2") on a row that does not qualify as a field row. -/
def c5m : Row := { blankRow with fieldName := Cell.str "SID2" }

/-- The blank-field-name qualifying row of the C5 counterexample. -/
def c5b : Row := { blankRow with variableName := Cell.str "x" }

/-- The field record the code emits for `c5b`. -/
def c5fi : FieldInfo :=
  { field_name := Cell.str "", type := Cell.str "", variable_name := Cell.str "x",
    count := Cell.str "", gain := Cell.num 1, offset := Cell.num 0,
    min := Cell.str "", max := Cell.str "", concept := Cell.str "", unit := Cell.str "" }

/-- The group the code emits for the sheet `[c5m, c5b]`. -/
def c5g : Group :=
  [(Cell.str "metadata",
    GVal.meta { info := "S", full_name := "SID2", SID := "SID2", SIDNumber := 2 }),
   (Cell.str "x", GVal.field c5fi)]

/-- C5 counterexample: in the sheet `[c5m, c5b]` the last non-blank
field-name value seen earlier in the sheet before `c5b` is "SID2" (on the
non-qualifying marker row `c5m`), yet the blank field-name of `c5b`
resolves to the empty string, not to "SID2": carry-forward only records
field names of qualifying rows (src/app.py lines 114-115 sit inside the
line-110 guard). -/
theorem C5_counterexample :
    transcode [sheetOf "S" [c5m, c5b]] = Except.ok [c5g] ∧
    c5m.fieldName = Cell.str "SID2" ∧ c5m.fieldName ≠ Cell.str "" ∧
    c5b.fieldName = Cell.str "" ∧
    Group.get? c5g (Cell.str "x") = some (GVal.field c5fi) ∧
    c5fi.field_name = Cell.str "" ∧ c5fi.field_name ≠ Cell.str "SID2" := by
  exact ⟨rfl, rfl, by decide, rfl, rfl, rfl, by decide⟩

/-- Witness for C5: applying the amended theorem to the concrete sheet
`[c5m, c5b]`. -/
theorem C5_attribute_defaults_witness :
    Group.get? ((processRow "S" (([c5m]).foldlM (processRow "S") (initState [])
        |>.toOption.getD (initState [])) c5b).toOption.getD (initState [])).SID
      c5b.variableName = some (GVal.field
      { field_name := if c5b.fieldName = Cell.str "" then lastFQ (Cell.str "") [c5m] else c5b.fieldName
        type := if c5b.type = Cell.str "" then Cell.str "" else c5b.type
        variable_name := if c5b.variableName = Cell.str "" then Cell.str "" else c5b.variableName
        count := if c5b.count = Cell.str "" then Cell.str "" else c5b.count
        gain := if c5b.gain = Cell.str "" then Cell.num 1 else c5b.gain
        offset := if c5b.offset = Cell.str "" then Cell.num 0 else c5b.offset
        min := if c5b.min = Cell.str "" then Cell.str "" else c5b.min
        max := if c5b.max = Cell.str "" then Cell.str "" else c5b.max
        concept := if c5b.concept = Cell.str "" then Cell.str "" else c5b.concept
        unit := if c5b.unit = Cell.str "" then Cell.str "" else c5b.unit }) :=
  C5_attribute_defaults "S" [c5m] c5b
    (([c5m]).foldlM (processRow "S") (initState []) |>.toOption.getD (initState []))
    ((processRow "S" (([c5m]).foldlM (processRow "S") (initState [])
        |>.toOption.getD (initState [])) c5b).toOption.getD (initState []))
    rfl rfl rfl

/-- The scanner state right after the first marker row with label `s`. -/
def markedState (s : String) : ScanState :=
  { SID := [], is_first_SID := false, SID_Full_Name := s,
    last_valid_field_name := Cell.str "", acc := [] }

theorem transcodeSheet_error_intro (acc : List Group) (sh : Sheet) (e : String)
    (hc : (required_cols.all fun c => sh.cols.contains c) = true)
    (hfold : sh.rows.foldlM (processRow sh.name) (initState acc) = Except.error e) :
    transcodeSheet acc sh = Except.error e := by
  unfold transcodeSheet
  rw [if_pos hc, hfold]

theorem transcode_single_error (sh : Sheet) (e : String)
    (h : transcodeSheet [] sh = Except.error e) : transcode [sh] = Except.error e := by
  unfold transcode
  rw [List.foldlM_cons, h, except_bind_error]

/-- C6: the numeric group id is `int(label.split(":")[0].replace("SID", ""))`
(src/app.py lines 111-112).  When the stripped remainder is non-numeric
and some row of the sheet qualifies, the whole upload fails with the
parse error and the application state is returned unchanged: no structure
collection is written and no History Entry is added. -/
theorem C6_parse_error_aborts (st : AppState) (sn : String) (m : Row) (rest : List Row)
    (s cn nid : String) (nOk : Bool)
    (hm : markerStr m.fieldName = some s)
    (hrest : ∀ r ∈ rest, markerStr r.fieldName = none)
    (hbad : pyInt (stripSID s) = none)
    (hq : qualifies m = true ∨ ∃ r ∈ rest, qualifies r = true) :
    ∃ msg, uploadExcel st [sheetOf sn (m :: rest)] cn nid nOk =
      (st, Except.error ("Error parsing Excel: " ++ msg)) := by
  have hms : markerStep (initState []) m = markedState s := by
    simp [markerStep, hm, initState, markedState]
  have herr : ∀ hqm : qualifies m = true, processRow sn (initState []) m = Except.error
      ("invalid literal for int with base 10: " ++ String.mk (stripSID s)) := by
    intro hqm
    unfold processRow
    rw [hms, if_pos hqm]
    unfold assemble
    rw [show pyInt (stripSID (markedState s).SID_Full_Name) = none from hbad]
    rfl
  have hfold : ∃ e, (m :: rest).foldlM (processRow sn) (initState []) = Except.error e := by
    by_cases hqm : qualifies m = true
    · exact ⟨_, by rw [List.foldlM_cons, herr hqm, except_bind_error]⟩
    · have hqm' : qualifies m = false := by
        simp only [Bool.not_eq_true] at hqm; exact hqm
      have hqrest : ∃ r ∈ rest, qualifies r = true := by
        rcases hq with hql | hqr
        · exact absurd hql (by simp [hqm'])
        · exact hqr
      have hpr : processRow sn (initState []) m = Except.ok (markedState s) := by
        unfold processRow
        rw [hms, if_neg (by simp [hqm'])]
      obtain ⟨e, he⟩ := fold_badlabel sn rest (markedState s) hrest hbad hqrest
      exact ⟨e, by rw [List.foldlM_cons, hpr, except_bind_ok]; exact he⟩
  obtain ⟨e, he⟩ := hfold
  have h2 : transcodeSheet [] (sheetOf sn (m :: rest)) = Except.error e :=
    transcodeSheet_error_intro [] _ e requiredOK he
  have h3 : transcode [sheetOf sn (m :: rest)] = Except.error e :=
    transcode_single_error _ e h2
  exact ⟨e, by unfold uploadExcel; rw [h3]⟩

/-- The unparsable marker row of the C6 witness: label "SIDX" strips to
"X", which is not numeric. -/
def c6m : Row := { blankRow with fieldName := Cell.str "SIDX" }

/-- A qualifying row governed by the bad label. -/
def c6r : Row := { blankRow with variableName := Cell.str "x" }

/-- Witness for C6 at a concrete input. -/
theorem C6_parse_error_aborts_witness :
    ∃ msg, uploadExcel st0 [sheetOf "S" (c6m :: [c6r])] "CN" "ID" true =
      (st0, Except.error ("Error parsing Excel: " ++ msg)) :=
  C6_parse_error_aborts st0 "S" c6m [c6r] "SIDX" "CN" "ID" true rfl (by decide) rfl
    (Or.inr (by decide))

theorem fold_sheets_error (wb : List Sheet) (sh : Sheet) (a : List Group)
    (hmem : sh ∈ wb)
    (hsh : ∀ acc, transcodeSheet acc sh =
      Except.error ("Missing required columns in sheet: " ++ sh.name)) :
    ∃ msg, wb.foldlM transcodeSheet a = Except.error msg := by
  induction wb generalizing a with
  | nil => exact absurd hmem (by simp)
  | cons w rest ih =>
      rw [List.foldlM_cons]
      cases hw : transcodeSheet a w with
      | error e => exact ⟨e, by rw [except_bind_error]⟩
      | ok a' =>
          rcases List.mem_cons.mp hmem with heq | hmem'
          · subst heq
            rw [hsh a] at hw
            exact absurd hw (by simp)
          · rw [except_bind_ok]
            exact ih a' hmem'

/-- C7: an upload whose workbook contains a sheet lacking a required
column fails and leaves the application state unchanged (no collection
written, no History Entry added); moreover the failing sheet is rejected
with an error naming it, independently of its rows (so before any row of
that sheet is processed). -/
theorem C7_missing_columns (st : AppState) (wb : List Sheet) (sh : Sheet)
    (cn nid : String) (nOk : Bool) (hmem : sh ∈ wb)
    (hmiss : (required_cols.all fun c => sh.cols.contains c) = false) :
    (∃ msg, uploadExcel st wb cn nid nOk = (st, Except.error msg)) ∧
    (∀ acc rows, transcodeSheet acc { sh with rows := rows } =
        Except.error ("Missing required columns in sheet: " ++ sh.name)) := by
  have hneg : ¬((required_cols.all fun c => sh.cols.contains c) = true) := by
    intro hc; rw [hmiss] at hc; exact Bool.false_ne_true hc
  have hsh : ∀ acc, transcodeSheet acc sh =
      Except.error ("Missing required columns in sheet: " ++ sh.name) := by
    intro acc
    unfold transcodeSheet
    rw [if_neg hneg]
  constructor
  · obtain ⟨e, he⟩ := fold_sheets_error wb sh [] hmem hsh
    exact ⟨"Error parsing Excel: " ++ e, by unfold uploadExcel transcode; rw [he]⟩
  · intro acc rows
    have hcols : ({ sh with rows := rows } : Sheet).cols = sh.cols := rfl
    have hname : ({ sh with rows := rows } : Sheet).name = sh.name := rfl
    unfold transcodeSheet
    rw [hcols, hname, if_neg hneg]

/-- A sheet missing nine of the ten required columns. -/
def badSheet : Sheet := { name := "Bad", cols := ["Field Name"], rows := [] }

/-- Witness for C7 at a concrete input. -/
theorem C7_missing_columns_witness :
    (∃ msg, uploadExcel st0 [badSheet] "CN" "ID" true = (st0, Except.error msg)) ∧
    (∀ acc rows, transcodeSheet acc { badSheet with rows := rows } =
        Except.error ("Missing required columns in sheet: " ++ badSheet.name)) :=
  C7_missing_columns st0 [badSheet] badSheet "CN" "ID" true (List.mem_cons_self badSheet [])
    rfl

theorem keys_cons_char (K1 K2 : Cell → Prop) (m : Row) (rows : List Row)
    (hA : ∀ k, K1 k ↔ (qualifies m = true ∧ (k = Cell.str "metadata" ∨ k = m.variableName)))
    (hB : ∀ k, K2 k ↔ (K1 k ∨ (k = Cell.str "metadata" ∧ ∃ r ∈ rows, qualifies r = true) ∨
        (∃ r ∈ rows, qualifies r = true ∧ k = r.variableName))) :
    ∀ k, K2 k ↔ ((k = Cell.str "metadata" ∧ ∃ r ∈ m :: rows, qualifies r = true) ∨
      (∃ r ∈ m :: rows, qualifies r = true ∧ k = r.variableName)) := by
  intro k
  rw [hB k, hA k]
  constructor
  · rintro (⟨hqm, (hmd | hvar)⟩ | ⟨hmd, r', hr', hq'⟩ | ⟨r', hr', hq', hk'⟩)
    · exact Or.inl ⟨hmd, m, List.mem_cons_self m rows, hqm⟩
    · exact Or.inr ⟨m, List.mem_cons_self m rows, hqm, hvar⟩
    · exact Or.inl ⟨hmd, r', List.mem_cons_of_mem m hr', hq'⟩
    · exact Or.inr ⟨r', List.mem_cons_of_mem m hr', hq', hk'⟩
  · rintro (⟨hmd, r', hr', hq'⟩ | ⟨r', hr', hq', hk'⟩)
    · rcases List.mem_cons.mp hr' with heq | hmem
      · subst heq; exact Or.inl ⟨hq', Or.inl hmd⟩
      · exact Or.inr (Or.inl ⟨hmd, r', hmem, hq'⟩)
    · rcases List.mem_cons.mp hr' with heq | hmem
      · subst heq; exact Or.inl ⟨hq', Or.inr hk'⟩
      · exact Or.inr (Or.inr ⟨r', hmem, hq', hk'⟩)

theorem two_marker_groups (sn s1 s2 : String) (pre mid post : List Row) (m1 m2 : Row)
    (gs : List Group)
    (hpre : ∀ r ∈ pre, markerStr r.fieldName = none ∧ qualifies r = false)
    (hmid : ∀ r ∈ mid, markerStr r.fieldName = none)
    (hpost : ∀ r ∈ post, markerStr r.fieldName = none)
    (hm1 : markerStr m1.fieldName = some s1)
    (hm2 : markerStr m2.fieldName = some s2)
    (hok : transcode [sheetOf sn (pre ++ m1 :: (mid ++ m2 :: post))] = Except.ok gs) :
    ∃ g1 g2, gs = [g1, g2] ∧
      (∀ k, (Group.get? g1 k).isSome = true ↔
        ((k = Cell.str "metadata" ∧ ∃ r ∈ m1 :: mid, qualifies r = true) ∨
         (∃ r ∈ m1 :: mid, qualifies r = true ∧ k = r.variableName))) ∧
      (∀ k, (Group.get? g2 k).isSome = true ↔
        ((k = Cell.str "metadata" ∧ ∃ r ∈ m2 :: post, qualifies r = true) ∨
         (∃ r ∈ m2 :: post, qualifies r = true ∧ k = r.variableName))) := by
  have h1 := transcode_single _ _ hok
  obtain ⟨stf, hfold, hgs⟩ := transcodeSheet_ok_elim [] _ gs requiredOK h1
  obtain ⟨stm, hf_pre, hf_rest⟩ :=
    foldlM_ok_append (processRow sn) pre (m1 :: (mid ++ m2 :: post)) (initState []) stf hfold
  rw [fold_noop sn pre (initState []) hpre] at hf_pre
  have hstm : stm = initState [] := by
    injection hf_pre with h'
    exact h'.symm
  subst hstm
  obtain ⟨stA, hf_m1, hf_rest2⟩ :=
    foldlM_ok_cons (processRow sn) m1 (mid ++ m2 :: post) (initState []) stf hf_rest
  obtain ⟨hA_full, hA_flag, hA_acc, hA_keys⟩ :=
    processRow_marker sn (initState []) m1 stA s1 hf_m1 hm1
  have hA_acc' : stA.acc = [] := by
    rw [hA_acc]
    simp [initState]
  have hA_keys' : ∀ k, (Group.get? stA.SID k).isSome = true ↔
      (qualifies m1 = true ∧ (k = Cell.str "metadata" ∨ k = m1.variableName)) := by
    intro k
    rw [hA_keys k]
    simp [initState, Group.get?]
  obtain ⟨stB, hf_mid, hf_rest3⟩ :=
    foldlM_ok_append (processRow sn) mid (m2 :: post) stA stf hf_rest2
  have hB_frame := fold_frame_nonmarker sn mid stA stB hmid hf_mid
  have hB_keys := fold_nomarker_keys sn mid stA stB hmid hf_mid
  have hB_char := keys_cons_char (fun k => (Group.get? stA.SID k).isSome = true)
      (fun k => (Group.get? stB.SID k).isSome = true) m1 mid hA_keys' hB_keys
  obtain ⟨stC, hf_m2, hf_post⟩ := foldlM_ok_cons (processRow sn) m2 post stB stf hf_rest3
  obtain ⟨hC_full, hC_flag, hC_acc, hC_keys⟩ := processRow_marker sn stB m2 stC s2 hf_m2 hm2
  have hB_flag : stB.is_first_SID = false := by rw [hB_frame.2.1, hA_flag]
  have hC_acc' : stC.acc = [stB.SID] := by
    rw [hC_acc, hB_flag, if_neg (by simp : ¬(false = true)), hB_frame.1, hA_acc']
    rfl
  have hC_keys' : ∀ k, (Group.get? stC.SID k).isSome = true ↔
      (qualifies m2 = true ∧ (k = Cell.str "metadata" ∨ k = m2.variableName)) := by
    intro k
    rw [hC_keys k, hB_flag]
    simp
  have hF_frame := fold_frame_nonmarker sn post stC stf hpost hf_post
  have hF_keys := fold_nomarker_keys sn post stC stf hpost hf_post
  have hF_char := keys_cons_char (fun k => (Group.get? stC.SID k).isSome = true)
      (fun k => (Group.get? stf.SID k).isSome = true) m2 post hC_keys' hF_keys
  have hF_acc : stf.acc = [stB.SID] := by rw [hF_frame.1, hC_acc']
  refine ⟨stB.SID, stf.SID, ?_, hB_char, hF_char⟩
  rw [hgs, hF_acc]
  rfl

/-- C4 (amended): a row starts a new group iff its field-name cell is a
(non-empty) string containing "SID"; and for a sheet with exactly two
marker rows in which no qualifying field row precedes the first marker,
a successful transcode produces exactly two groups in output order, the
first holding exactly the metadata key (when its segment has a qualifying
row) plus the variable names of the qualifying rows from its marker up to
the second marker, the second likewise for the rows from the second
marker to sheet end.  (The original claim, without the no-row-before-the-
first-marker proviso, is refuted by `C4_counterexample`.) -/
theorem C4_marker_boundaries :
    (∀ r : Row, (markerStr r.fieldName).isSome = true ↔
      ∃ s, r.fieldName = Cell.str s ∧ s ≠ "" ∧
        ∃ l t, s.toList = l ++ 'S' :: 'I' :: 'D' :: t) ∧
    (∀ (sn s1 s2 : String) (pre mid post : List Row) (m1 m2 : Row) (gs : List Group),
      (∀ r ∈ pre, markerStr r.fieldName = none ∧ qualifies r = false) →
      (∀ r ∈ mid, markerStr r.fieldName = none) →
      (∀ r ∈ post, markerStr r.fieldName = none) →
      markerStr m1.fieldName = some s1 →
      markerStr m2.fieldName = some s2 →
      transcode [sheetOf sn (pre ++ m1 :: (mid ++ m2 :: post))] = Except.ok gs →
      ∃ g1 g2, gs = [g1, g2] ∧
        (∀ k, (Group.get? g1 k).isSome = true ↔
          ((k = Cell.str "metadata" ∧ ∃ r ∈ m1 :: mid, qualifies r = true) ∨
           (∃ r ∈ m1 :: mid, qualifies r = true ∧ k = r.variableName))) ∧
        (∀ k, (Group.get? g2 k).isSome = true ↔
          ((k = Cell.str "metadata" ∧ ∃ r ∈ m2 :: post, qualifies r = true) ∨
           (∃ r ∈ m2 :: post, qualifies r = true ∧ k = r.variableName)))) :=
  ⟨fun r => marker_iff r,
   fun sn s1 s2 pre mid post m1 m2 gs hpre hmid hpost hm1 hm2 hok =>
     two_marker_groups sn s1 s2 pre mid post m1 m2 gs hpre hmid hpost hm1 hm2 hok⟩

/-- A field record with the given field name and variable name and all
defaults (gain 1, offset 0, empty strings elsewhere). -/
def simpleFI (fn vn : String) : FieldInfo :=
  { field_name := Cell.str fn, type := Cell.str "", variable_name := Cell.str vn,
    count := Cell.str "", gain := Cell.num 1, offset := Cell.num 0,
    min := Cell.str "", max := Cell.str "", concept := Cell.str "", unit := Cell.str "" }

/-- A qualifying field row before any marker. -/
def c4xa : Row := { blankRow with fieldName := Cell.str "A", variableName := Cell.str "x" }

/-- The first marker row of the C4 counterexample. -/
def c4m1 : Row := { blankRow with fieldName := Cell.str "SID1" }

/-- The field row between the two markers. -/
def c4y : Row := { blankRow with variableName := Cell.str "y" }

/-- The second marker row. -/
def c4m2 : Row := { blankRow with fieldName := Cell.str "SID2" }

/-- The field row after the second marker. -/
def c4z : Row := { blankRow with variableName := Cell.str "z" }

/-- The first emitted group of the C4 counterexample sheet. -/
def c4g1 : Group :=
  [(Cell.str "metadata",
    GVal.meta { info := "S", full_name := "SID1", SID := "SID1", SIDNumber := 1 }),
   (Cell.str "x", GVal.field (simpleFI "A" "x")),
   (Cell.str "y", GVal.field (simpleFI "A" "y"))]

/-- The second emitted group of the C4 counterexample sheet. -/
def c4g2 : Group :=
  [(Cell.str "metadata",
    GVal.meta { info := "S", full_name := "SID2", SID := "SID2", SIDNumber := 2 }),
   (Cell.str "z", GVal.field (simpleFI "A" "z"))]

/-- C4 counterexample: the sheet `[c4xa, c4m1, c4y, c4m2, c4z]` has
exactly two marker rows (`c4m1`, `c4m2`), yet its first emitted group
holds an entry keyed "x" although neither row of the first marker's
segment (`c4m1`, `c4y`) has variable name "x" — the entry comes from
`c4xa`, which lies BEFORE the first marker.  So the first group does not
contain only the field rows lying between its marker row and the next. -/
theorem C4_counterexample :
    transcode [sheetOf "S" [c4xa, c4m1, c4y, c4m2, c4z]] = Except.ok [c4g1, c4g2] ∧
    markerCount [c4xa, c4m1, c4y, c4m2, c4z] = 2 ∧
    markerStr c4xa.fieldName = none ∧
    (Group.get? c4g1 (Cell.str "x")).isSome = true ∧
    c4m1.variableName ≠ Cell.str "x" ∧ c4y.variableName ≠ Cell.str "x" :=
  ⟨rfl, rfl, rfl, rfl, by decide, by decide⟩

/-- Witness for C4 at a concrete input: no rows before the first marker,
one qualifying field row between the markers, none after. -/
theorem C4_marker_boundaries_witness :
    ∃ g1 g2,
      (transcode [sheetOf "S" ([] ++ c4m1 :: ([c4y] ++ c4m2 :: []))]).toOption.getD [] =
        [g1, g2] ∧
      (∀ k, (Group.get? g1 k).isSome = true ↔
        ((k = Cell.str "metadata" ∧ ∃ r ∈ c4m1 :: [c4y], qualifies r = true) ∨
         (∃ r ∈ c4m1 :: [c4y], qualifies r = true ∧ k = r.variableName))) ∧
      (∀ k, (Group.get? g2 k).isSome = true ↔
        ((k = Cell.str "metadata" ∧ ∃ r ∈ c4m2 :: [], qualifies r = true) ∨
         (∃ r ∈ c4m2 :: [], qualifies r = true ∧ k = r.variableName))) :=
  C4_marker_boundaries.2 "S" "SID1" "SID2" [] [c4y] [] c4m1 c4m2
    ((transcode [sheetOf "S" ([] ++ c4m1 :: ([c4y] ++ c4m2 :: []))]).toOption.getD [])
    (by simp) (by decide) (by simp) rfl rfl rfl

theorem lastFQ_append (i : Cell) (l1 l2 : List Row) :
    lastFQ i (l1 ++ l2) = lastFQ (lastFQ i l1) l2 := by
  simp [lastFQ, List.foldl_append]

theorem lastFQ_nonqual (i : Cell) (rows : List Row)
    (h : ∀ r ∈ rows, qualifies r = false) : lastFQ i rows = i := by
  induction rows generalizing i with
  | nil => rfl
  | cons r t ih =>
      have hr := h r (List.mem_cons_self r t)
      simp only [lastFQ, List.foldl_cons]
      rw [if_neg (by simp [hr])]
      exact ih i (fun r' hr' => h r' (List.mem_cons_of_mem r hr'))

/-- C10 (amended): the carry-forward state starts empty for each sheet and
is not reset at group boundaries: a qualifying row with a blank
field-name cell resolves to the last non-blank field-name among the
earlier QUALIFYING rows of the sheet, looking straight across any marker
row; in particular, when the marker row and the rows after it up to the
blank row contribute nothing, the resolved value is exactly the one
carried out of the previous group.  (The original claim's "seen anywhere
earlier in that sheet" is refuted by `C10_counterexample`.) -/
theorem C10_carry_across_groups (sn : String) (pre mid : List Row) (m r : Row) (s : String)
    (st st' : ScanState)
    (hm : markerStr m.fieldName = some s)
    (hq : qualifies r = true) (hblank : r.fieldName = Cell.str "")
    (hfold : (pre ++ m :: mid).foldlM (processRow sn) (initState []) = Except.ok st)
    (hr : processRow sn st r = Except.ok st') :
    (∃ fi : FieldInfo, Group.get? st'.SID r.variableName = some (GVal.field fi) ∧
      fi.field_name = lastFQ (Cell.str "") (pre ++ m :: mid)) ∧
    (qualifies m = false → (∀ r' ∈ mid, qualifies r' = false) →
      lastFQ (Cell.str "") (pre ++ m :: mid) = lastFQ (Cell.str "") pre) := by
  constructor
  · have hlv : st.last_valid_field_name = lastFQ (Cell.str "") (pre ++ m :: mid) := by
      have := fold_lv sn (pre ++ m :: mid) (initState []) st hfold
      simpa [initState] using this
    unfold processRow at hr
    rw [if_pos hq] at hr
    obtain ⟨n, -, hshape⟩ := assemble_ok_shape sn (markerStep st r) r st' hr
    subst hshape
    rw [get?_set_self]
    refine ⟨_, rfl, ?_⟩
    simp [hblank, markerStep_lv, hlv]
  · intro hqm hmid
    rw [lastFQ_append]
    apply lastFQ_nonqual
    intro r' hr'
    rcases List.mem_cons.mp hr' with heq | hmem
    · subst heq; exact hqm
    · exact hmid r' hmem

/-- The pre-marker qualifying row of the C10 counterexample. -/
def c10a : Row := { blankRow with fieldName := Cell.str "A", variableName := Cell.str "x" }

/-- The marker row of the C10 counterexample (non-blank field name,
blank variable name). -/
def c10m : Row := { blankRow with fieldName := Cell.str "SID2" }

/-- The blank-field-name qualifying row of the C10 counterexample. -/
def c10y : Row := { blankRow with variableName := Cell.str "y" }

/-- The single group the code emits for the C10 counterexample sheet. -/
def c10g : Group :=
  [(Cell.str "metadata",
    GVal.meta { info := "S", full_name := "SID2", SID := "SID2", SIDNumber := 2 }),
   (Cell.str "x", GVal.field (simpleFI "A" "x")),
   (Cell.str "y", GVal.field (simpleFI "A" "y"))]

/-- C10 counterexample: before `c10y`, the last non-blank field-name value
seen anywhere earlier in the sheet is "SID2" (on the marker row `c10m`),
yet the blank field-name of `c10y` resolves to "A": the marker row does
not qualify, so its field-name cell never enters the carry-forward
state. -/
theorem C10_counterexample :
    transcode [sheetOf "S" [c10a, c10m, c10y]] = Except.ok [c10g] ∧
    c10a.fieldName = Cell.str "A" ∧ c10m.fieldName = Cell.str "SID2" ∧
    c10m.fieldName ≠ Cell.str "" ∧ c10y.fieldName = Cell.str "" ∧
    Group.get? c10g (Cell.str "y") = some (GVal.field (simpleFI "A" "y")) ∧
    (simpleFI "A" "y").field_name = Cell.str "A" ∧
    Cell.str "A" ≠ Cell.str "SID2" :=
  ⟨rfl, rfl, rfl, by decide, rfl, rfl, rfl, by decide⟩

/-- Witness for C10 at a concrete input: the qualifying row `c5b` (blank
field name) processed after the sheet prefix `[c10a, c10m]`. -/
theorem C10_carry_across_groups_witness :
    (∃ fi : FieldInfo,
      Group.get? ((processRow "S" (([c10a] ++ c10m :: []).foldlM (processRow "S")
          (initState []) |>.toOption.getD (initState [])) c10y).toOption.getD
          (initState [])).SID c10y.variableName = some (GVal.field fi) ∧
      fi.field_name = lastFQ (Cell.str "") ([c10a] ++ c10m :: [])) ∧
    (qualifies c10m = false → (∀ r' ∈ ([] : List Row), qualifies r' = false) →
      lastFQ (Cell.str "") ([c10a] ++ c10m :: []) = lastFQ (Cell.str "") [c10a]) :=
  C10_carry_across_groups "S" [c10a] [] c10m c10y "SID2"
    (([c10a] ++ c10m :: []).foldlM (processRow "S") (initState [])
      |>.toOption.getD (initState []))
    ((processRow "S" (([c10a] ++ c10m :: []).foldlM (processRow "S")
        (initState []) |>.toOption.getD (initState [])) c10y).toOption.getD
        (initState []))
    rfl rfl rfl rfl rfl

end CCSDS
